import Mathlib

/-!
# Verification of the caffe-control-gcp core subsystems

Shallow embedding, in Lean 4, of the core logic of the repository:

* write-off type classification and catalog enrichment
  (`functions/nodejs/utils/writeoffs.ts`),
* the catalog lazy cache (`functions/nodejs/utils/catalog.ts`),
* the dual-write database abstraction (`functions/nodejs/utils/database.ts`),
* the webhook ingestion pipeline (`functions/nodejs/api/webhook/index.ts`).

JavaScript numbers that carry monetary values are modelled as `ℚ`; machine
timestamps are modelled as `Nat` milliseconds; fallible I/O is modelled by
explicit success flags in an environment record, and the document stores by
explicit association lists threaded through the functions.
-/

namespace CaffeControl

/-! ## JavaScript numeric-string parsing helpers

`parseInt(s, 10)` and `parseFloat(s)` are used by the source to interpret
numeric strings coming from the Poster API.  We model them with `Option`
results (`none` plays the role of `NaN`). -/

/-- Accumulate a run of decimal digit characters into a natural number. -/
def digitsToNat (cs : List Char) : Nat :=
  cs.foldl (fun n c => n * 10 + (c.toNat - 48)) 0

/-- Split a character list into its leading run of decimal digits and the rest. -/
def takeDigits (cs : List Char) : List Char × List Char :=
  (cs.takeWhile Char.isDigit, cs.dropWhile Char.isDigit)

/-- Is the character JavaScript whitespace (the cases relevant to our inputs)? -/
def isJsSpace (c : Char) : Bool :=
  c = ' ' || c = '\t' || c = '\n' || c = '\r'

/-- Model of JavaScript `parseInt(s, 10)`: optional sign after leading
whitespace, then the longest run of decimal digits; `none` models `NaN`
(no digits at all). -/
def posterParseInt (s : String) : Option Int :=
  let cs := s.toList.dropWhile isJsSpace
  let (sign, cs1) : Int × List Char :=
    match cs with
    | '-' :: rest => (-1, rest)
    | '+' :: rest => (1, rest)
    | _ => (1, cs)
  let (ds, _) := takeDigits cs1
  if ds.isEmpty then none else some (sign * (digitsToNat ds : Int))

/-- Exponent part of a JavaScript float literal (`e5`, `E-3`, ...); a
malformed exponent is ignored, as `parseFloat` stops at the first character
that cannot be parsed. -/
def parseExpPart (cs : List Char) : Int :=
  match cs with
  | 'e' :: rest | 'E' :: rest =>
    let (esign, rest2) : Int × List Char :=
      match rest with
      | '-' :: r => (-1, r)
      | '+' :: r => (1, r)
      | _ => (1, rest)
    let (ed, _) := takeDigits rest2
    if ed.isEmpty then 0 else esign * (digitsToNat ed : Int)
  | _ => 0

/-- Scale a rational by a (possibly negative) power of ten. -/
def scalePow10 (q : ℚ) (e : Int) : ℚ :=
  if 0 ≤ e then q * (10 : ℚ) ^ e.toNat else q / (10 : ℚ) ^ (-e).toNat

/-- Model of JavaScript `parseFloat(s)` over the rationals: leading
whitespace, optional sign, integer part, optional fractional part, optional
exponent; `none` models `NaN` (no digits in the mantissa). -/
def parseFloatQ (s : String) : Option ℚ :=
  let cs := s.toList.dropWhile isJsSpace
  let (sign, cs1) : ℚ × List Char :=
    match cs with
    | '-' :: rest => (-1, rest)
    | '+' :: rest => (1, rest)
    | _ => (1, cs)
  let (ip, cs2) := takeDigits cs1
  let (fp, cs3) :=
    match cs2 with
    | '.' :: rest => takeDigits rest
    | _ => ([], cs2)
  if ip.isEmpty ∧ fp.isEmpty then none
  else
    let base : ℚ := (digitsToNat ip : ℚ) + (digitsToNat fp : ℚ) / (10 : ℚ) ^ fp.length
    some (sign * scalePow10 base (parseExpPart cs3))

/-! ## Catalog data model (`utils/catalog.ts`) -/

/-- `CatalogItem` from `utils/catalog.ts`: normalized catalog entry.
`type`: 1=product, 2=recipe, 3=prepack, 4=ingredient, 5=modifier. -/
structure CatalogItem where
  id : String
  name : String
  type : Nat
  unit : Option String := none
  category_id : Option String := none
deriving DecidableEq, Repr

/-- `CatalogMetadata` from `utils/catalog.ts`: the cache bookkeeping record.
`synced_at` is a timestamp in milliseconds since the epoch. -/
structure CatalogMetadata where
  synced_at : Nat
  items_count : Nat
deriving DecidableEq, Repr

/-! ## Write-off enrichment (`utils/writeoffs.ts`) -/

/-- `PosterWriteOff`: raw write-off from Poster `dash.getTransactionWriteoffs`.
All id fields and `weight` arrive as strings; costs are numbers. -/
structure PosterWriteOff where
  write_off_id : String
  tr_product_id : String
  storage_id : String
  ingredient_id : String
  product_id : String
  modificator_id : String
  prepack_id : String
  weight : String
  unit : String
  cost : ℚ
  cost_netto : ℚ
  time : String
deriving DecidableEq, Repr

/-- `TransactionWriteOff`: write-off enriched with catalog names, a numeric
weight and a classified `type`. -/
structure TransactionWriteOff where
  write_off_id : String
  tr_product_id : String
  storage_id : String
  ingredient_id : String
  ingredient_name : Option String
  product_id : String
  product_name : Option String
  modificator_id : String
  prepack_id : String
  weight : ℚ
  unit : String
  cost : ℚ
  cost_netto : ℚ
  time : String
  type : Nat
deriving DecidableEq, Repr

/-- The JavaScript truthiness test used on id fields:
`id && id !== '0'` — set (non-empty string) and not the literal `"0"`. -/
def idSetNonZero (id : String) : Bool :=
  id != "" && id != "0"

/-- `determineWriteOffType` from `utils/writeoffs.ts`: classify a write-off
by which id field is populated, checking modifier, then ingredient, then
prepack, defaulting to ingredient. -/
def determineWriteOffType (wo : PosterWriteOff) : Nat :=
  if idSetNonZero wo.modificator_id then 5
  else if idSetNonZero wo.ingredient_id then 4
  else if idSetNonZero wo.prepack_id then 3
  else 4

/-- `createCatalogMap` from `utils/catalog.ts` builds `new Map(items.map(i =>
[i.id, i]))`; a JavaScript `Map` constructed from a list keeps the **last**
entry for a duplicated key, which the fold below reproduces. -/
def createCatalogMap (catalog : List CatalogItem) (key : String) : Option CatalogItem :=
  catalog.foldl (fun acc it => if it.id = key then some it else acc) none

/-- Enrich one raw write-off against a catalog lookup function
(the body of the `map` callback in `enrichWriteOffsWithCatalog`). -/
def enrichWriteOff (catalogMap : String → Option CatalogItem)
    (wo : PosterWriteOff) : TransactionWriteOff :=
  { write_off_id := wo.write_off_id
    tr_product_id := wo.tr_product_id
    storage_id := wo.storage_id
    ingredient_id := wo.ingredient_id
    ingredient_name :=
      if idSetNonZero wo.ingredient_id then (catalogMap wo.ingredient_id).map CatalogItem.name
      else none
    product_id := wo.product_id
    product_name :=
      if idSetNonZero wo.product_id then (catalogMap wo.product_id).map CatalogItem.name
      else none
    modificator_id := wo.modificator_id
    prepack_id := wo.prepack_id
    weight := (parseFloatQ wo.weight).getD 0
    unit := wo.unit
    cost := wo.cost
    cost_netto := wo.cost_netto
    time := wo.time
    type := determineWriteOffType wo }

/-- `enrichWriteOffsWithCatalog` from `utils/writeoffs.ts`, for the call shape
where the catalog is supplied by the caller (when it is not, the source first
awaits `getCatalog()` and proceeds identically with its result). -/
def enrichWriteOffsWithCatalog (writeOffs : List PosterWriteOff)
    (catalog : List CatalogItem) : List TransactionWriteOff :=
  if writeOffs.isEmpty then []
  else writeOffs.map (enrichWriteOff (createCatalogMap catalog))

/-- `calculateWriteOffsTotalCost` from `utils/writeoffs.ts`. -/
def calculateWriteOffsTotalCost (writeOffs : List TransactionWriteOff) : ℚ :=
  writeOffs.foldl (fun sum wo => sum + wo.cost) 0

/-- `getCatalogItemName` from `utils/catalog.ts`: `catalog.find(i => i.id ===
itemId)` then `item?.name || 'Unknown'` — the empty string is falsy in
JavaScript, so an empty stored name also yields the sentinel.  The `catalog`
argument stands for the result of the internal `getCatalog()` call. -/
def getCatalogItemName (catalog : List CatalogItem) (itemId : String) : String :=
  match catalog.find? (fun i => i.id == itemId) with
  | some it => if it.name == "" then "Unknown" else it.name
  | none => "Unknown"

/-! ## External catalog source client (`fetchCatalogFromPoster`) -/

/-- Raw product record from Poster `menu.getProducts`. -/
structure PosterProduct where
  product_id : String
  product_name : String
  type : String
  unit : Option String := none
  category_id : Option String := none
deriving DecidableEq, Repr

/-- Raw ingredient record from Poster `menu.getIngredients`. -/
structure PosterIngredient where
  ingredient_id : String
  ingredient_name : String
  category_id : String
  ingredient_unit : Option String := none
deriving DecidableEq, Repr

/-- `IGNORED_INGREDIENT_CATEGORIES` from `utils/catalog.ts`: service/system
ingredient categories that are dropped from the catalog. -/
def IGNORED_INGREDIENT_CATEGORIES : List Int := [14, 17, 4, 6, 7, 8, 15, 18]

/-- `PRODUCT_TYPE_MAP[parseInt(p.type)] || 1` from `utils/catalog.ts`:
upstream product type 1 maps to prepack (3), 2 to recipe (2), 3 to product
(1); anything else (including `NaN`) falls back to product (1). -/
def productTypeMap (t : Option Int) : Nat :=
  match t with
  | some 1 => 3
  | some 2 => 2
  | some 3 => 1
  | _ => 1

/-- The product branch of the `fetchCatalogFromPoster` loop. -/
def productToCatalogItem (p : PosterProduct) : CatalogItem :=
  { id := p.product_id
    name := p.product_name
    type := productTypeMap (posterParseInt p.type)
    unit := p.unit
    category_id := p.category_id }

/-- The `IGNORED_INGREDIENT_CATEGORIES.includes(parseInt(i.category_id))`
test from `fetchCatalogFromPoster` (an unparsable category is `NaN`, which
is never a member of the list). -/
def ignoredIngredient (i : PosterIngredient) : Bool :=
  match posterParseInt i.category_id with
  | some n => IGNORED_INGREDIENT_CATEGORIES.contains n
  | none => false

/-- The ingredient branch of the `fetchCatalogFromPoster` loop. -/
def ingredientToCatalogItem (i : PosterIngredient) : CatalogItem :=
  { id := i.ingredient_id
    name := i.ingredient_name
    type := 4
    unit := i.ingredient_unit
    category_id := some i.category_id }

/-- The ingredients loop of `fetchCatalogFromPoster`: skip ignored
categories (`continue`), otherwise push one item of type 4. -/
def mapIngredients : List PosterIngredient → List CatalogItem
  | [] => []
  | i :: rest =>
    if ignoredIngredient i then mapIngredients rest
    else ingredientToCatalogItem i :: mapIngredients rest

/-- The two upstream HTTP responses consumed by `fetchCatalogFromPoster`:
an `ok` flag and status per endpoint, and the `response` payload (absent or
`null` payloads are skipped by the source's truthiness guards). -/
structure PosterCatalogEnv where
  productsOk : Bool
  productsStatus : Nat
  productsResp : Option (List PosterProduct)
  ingredientsOk : Bool
  ingredientsStatus : Nat
  ingredientsResp : Option (List PosterIngredient)
deriving Repr

/-- `fetchCatalogFromPoster` from `utils/catalog.ts`: fetch products (a
non-ok status is a hard failure), map them, then fetch ingredients (again a
hard failure on a non-ok status), filter and map them; the result is the
concatenation of mapped products and non-ignored ingredients. -/
def fetchCatalogFromPoster (env : PosterCatalogEnv) : Except String (List CatalogItem) :=
  if env.productsOk = false then
    .error ("Failed to fetch products: " ++ toString env.productsStatus)
  else
    let productItems :=
      match env.productsResp with
      | some l => l.map productToCatalogItem
      | none => []
    if env.ingredientsOk = false then
      .error ("Failed to fetch ingredients: " ++ toString env.ingredientsStatus)
    else
      let ingredientItems :=
        match env.ingredientsResp with
        | some l => mapIngredients l
        | none => []
      .ok (productItems ++ ingredientItems)

/-! ## Catalog lazy cache (`getCatalog`) -/

/-- `CACHE_TTL_HOURS` from `utils/catalog.ts`. -/
def CACHE_TTL_HOURS : Nat := 24

/-- The persisted state of the `catalog` Firestore collection: the singleton
`metadata` document and the `items` snapshot document. -/
structure CatalogStore where
  metadata : Option CatalogMetadata
  itemsDoc : Option (List CatalogItem)
deriving DecidableEq, Repr

/-- Result of one `getCatalog` invocation: the returned items, the store
after the call, and whether the upstream client was invoked. -/
structure CatalogCallResult where
  items : List CatalogItem
  store : CatalogStore
  calledUpstream : Bool
deriving DecidableEq, Repr

/-- `getCachedItems` from `utils/catalog.ts`: a missing items snapshot is
treated as the empty catalog. -/
def getCachedItems (s : CatalogStore) : List CatalogItem :=
  s.itemsDoc.getD []

/-- `saveCatalogToFirestore` from `utils/catalog.ts`: write the metadata
(`synced_at = now`, `items_count = items.length`) and the items snapshot in
one batch. -/
def saveCatalogToFirestore (now : Nat) (items : List CatalogItem) : CatalogStore :=
  { metadata := some { synced_at := now, items_count := items.length }
    itemsDoc := some items }

/-- `getCatalog` from `utils/catalog.ts`.  `now` is the current time in
milliseconds and `fetched` the items a (successful) upstream fetch would
return.  Cache hit when metadata exists and fewer than `CACHE_TTL_HOURS`
hours have elapsed since `synced_at`; otherwise refresh from upstream and
persist the new snapshot together with fresh metadata. -/
def getCatalog (now : Nat) (fetched : List CatalogItem) (s : CatalogStore) :
    CatalogCallResult :=
  match s.metadata with
  | some md =>
    if (now - md.synced_at) / (1000 * 60 * 60) < CACHE_TTL_HOURS then
      { items := getCachedItems s, store := s, calledUpstream := false }
    else
      { items := fetched, store := saveCatalogToFirestore now fetched, calledUpstream := true }
  | none =>
    { items := fetched, store := saveCatalogToFirestore now fetched, calledUpstream := true }

/-- `refreshCatalog` from `utils/catalog.ts`: always refresh, regardless of
the TTL. -/
def refreshCatalog (now : Nat) (fetched : List CatalogItem) (_s : CatalogStore) :
    CatalogCallResult :=
  { items := fetched, store := saveCatalogToFirestore now fetched, calledUpstream := true }

/-! ## Dual-write database abstraction (`utils/database.ts`) -/

/-- A document of the `transactions` collection, reduced to its identity
field (`transaction_id`, on which MongoDB has the unique index and which is
the Firestore document id) and an opaque payload. -/
structure TxDoc where
  transaction_id : String
  payload : String := ""
deriving DecidableEq, Repr

/-- `InsertManyResult` from `utils/database.ts`. -/
structure InsertManyResult where
  insertedCount : Nat
  duplicateCount : Nat
deriving DecidableEq, Repr

/-- `DatabaseConfig` from `utils/database.ts` (derived from the
`ENABLE_FIRESTORE` / `ENABLE_MONGODB` / `READ_FROM` environment variables). -/
structure DatabaseConfig where
  enableFirestore : Bool
  enableMongoDB : Bool
  readFromMongo : Bool
deriving DecidableEq, Repr

/-- The two physical `transactions` stores behind the facade. -/
structure DualStore where
  mongoTx : List TxDoc
  fsTx : List TxDoc
deriving DecidableEq, Repr

/-- Does the store already hold a document with this identity value? -/
def hasTxId (store : List TxDoc) (id : String) : Bool :=
  store.any (fun e => e.transaction_id == id)

/-- The behaviour of MongoDB `insertMany(docs, { ordered: false })` against a
unique index on `transaction_id`: each document is attempted, a duplicate key
conflict is recorded as a write error and the rest of the batch continues.
`insertManyMongoDB` in `utils/database.ts` then reads `nInserted` and
`writeErrors.length` out of the `E11000` bulk-write error, which is exactly
the pair accumulated here. -/
def mongoInsertLoop : List TxDoc → List TxDoc → Nat → Nat →
    InsertManyResult × List TxDoc
  | store, [], ins, dup => (⟨ins, dup⟩, store)
  | store, d :: rest, ins, dup =>
    if hasTxId store d.transaction_id then
      mongoInsertLoop store rest ins (dup + 1)
    else
      mongoInsertLoop (store ++ [d]) rest (ins + 1) dup

/-- `insertManyMongoDB` from `utils/database.ts`: duplicate-key conflicts are
caught, counted and absorbed; the counts of the bulk-write report are
returned. -/
def insertManyMongoDB (store : List TxDoc) (documents : List TxDoc) :
    InsertManyResult × List TxDoc :=
  mongoInsertLoop store documents 0 0

/-- `FIRESTORE_BATCH_LIMIT` from `utils/database.ts`. -/
def FIRESTORE_BATCH_LIMIT : Nat := 500

/-- Firestore `batch.set` on a document reference: replaces the document with
that id, or creates it. -/
def firestoreSet (store : List TxDoc) (d : TxDoc) : List TxDoc :=
  if hasTxId store d.transaction_id then
    store.map (fun e => if e.transaction_id == d.transaction_id then d else e)
  else store ++ [d]

/-- One batch of the `insertManyFirestore` loop: every existence check in a
batch reads the store as committed before the batch, and the batched `set`s
land together at `commit`.  Returns (inserted, duplicates, committed store). -/
def firestoreChunk (store : List TxDoc) (chunk : List TxDoc) :
    Nat × Nat × List TxDoc :=
  chunk.foldl
    (fun acc d =>
      if hasTxId store d.transaction_id then (acc.1, acc.2.1 + 1, acc.2.2)
      else (acc.1 + 1, acc.2.1, firestoreSet acc.2.2 d))
    (0, 0, store)

/-- `insertManyFirestore` from `utils/database.ts`: process the documents in
batches of `FIRESTORE_BATCH_LIMIT`, skipping (and counting) documents whose
id already exists. -/
def insertManyFirestore (store : List TxDoc) (documents : List TxDoc)
    (ins dup : Nat) : InsertManyResult × List TxDoc :=
  if documents.isEmpty then (⟨ins, dup⟩, store)
  else
    let chunk := documents.take FIRESTORE_BATCH_LIMIT
    let rest := documents.drop FIRESTORE_BATCH_LIMIT
    let step := firestoreChunk store chunk
    insertManyFirestore step.2.2 rest (ins + step.1) (dup + step.2.1)
termination_by documents.length
decreasing_by
  simp only [List.length_drop]
  have hpos : 0 < documents.length := by
    cases documents with
    | nil => simp at *
    | cons a l => simp
  exact Nat.sub_lt hpos (by norm_num [FIRESTORE_BATCH_LIMIT])

/-- `transactions.insertMany` from `utils/database.ts`: fan the bulk insert
out to every enabled backend and return the MongoDB counts as primary when
MongoDB is enabled, otherwise the Firestore counts. -/
def transactionsInsertMany (cfg : DatabaseConfig) (s : DualStore)
    (documents : List TxDoc) : InsertManyResult × DualStore :=
  let mongoStep :=
    if cfg.enableMongoDB then insertManyMongoDB s.mongoTx documents
    else (⟨0, 0⟩, s.mongoTx)
  let fsStep :=
    if cfg.enableFirestore then insertManyFirestore s.fsTx documents 0 0
    else (⟨0, 0⟩, s.fsTx)
  (if cfg.enableMongoDB then mongoStep.1 else fsStep.1,
   { mongoTx := mongoStep.2, fsTx := fsStep.2 })

/-! ## Webhook ingestion pipeline (`api/webhook/index.ts`) -/

/-- The fields of the inbound Poster webhook envelope that the handler's
validation inspects.  `action` is `none` when the field is absent (or
`null`/`undefined`); `object_id` is `none` when absent.  JavaScript
truthiness makes `""` and `0` behave like the missing cases, so both are
kept representable. -/
structure PosterWebhookMsg where
  action : Option String
  object_id : Option Int
deriving DecidableEq, Repr

/-- The inbound request body as seen by `parsePayload`: a falsy body, a
string/buffer that fails `JSON.parse`, or a body that yields an envelope. -/
inductive RawBody
  | empty : RawBody
  | badJson : RawBody
  | parsed : PosterWebhookMsg → RawBody
deriving DecidableEq, Repr

/-- `parsePayload` from `api/webhook/index.ts`: an empty body and malformed
JSON are validation errors with distinct messages, anything else is accepted
as the envelope. -/
def parsePayload : RawBody → Except String PosterWebhookMsg
  | .empty => .error "Empty request body"
  | .badJson => .error "Invalid JSON payload"
  | .parsed w => .ok w

/-- `ALLOWED_ACTIONS = Object.values(PosterAction)` from
`api/webhook/index.ts`. -/
def ALLOWED_ACTIONS : List String :=
  ["added", "changed", "removed", "transformed", "closed"]

/-- JavaScript truthiness of an optional string field (`!webhook.action`). -/
def strFalsy : Option String → Bool
  | none => true
  | some v => v == ""

/-- JavaScript truthiness of an optional numeric field
(`!webhook.object_id`). -/
def intFalsy : Option Int → Bool
  | none => true
  | some v => v == 0

/-- The validated data the handler extracts from the envelope. -/
structure ValidatedHook where
  action : String
  object_id : Int
deriving DecidableEq, Repr

/-- The validation phase of the webhook handler, run after the raw record is
persisted: parse the payload, require a truthy `action`, require it to be in
`ALLOWED_ACTIONS` (with the same details string the handler returns),
require a truthy `object_id`. -/
def validationResult (b : RawBody) : Except String ValidatedHook :=
  match parsePayload b with
  | .error d => .error d
  | .ok w =>
    if strFalsy w.action then .error "Missing required field: action"
    else
      let a := w.action.getD ""
      if (ALLOWED_ACTIONS.contains a) = false then
        .error ("Invalid action: " ++ a ++ ". Allowed: " ++
          String.intercalate ", " ALLOWED_ACTIONS)
      else if intFalsy w.object_id then .error "Missing required field: object_id"
      else .ok { action := a, object_id := w.object_id.getD 0 }

/-- The `metadata` sub-object of a raw hook document. -/
structure HookMetadata where
  received_at : Nat
  processed : Bool
  processed_at : Option Nat
  saved_to_transactions : Bool
  processing_error : Option String
  error_time : Option Nat
deriving DecidableEq, Repr

/-- A document of the `poster-hooks-data` collection: the snapshotted body
plus the metadata sub-object. -/
structure RawHookDoc where
  body : RawBody
  metadata : HookMetadata
deriving DecidableEq, Repr

/-- The full transaction record returned by Poster `dash.getTransaction`,
reduced to its key (`transaction_id`) and an opaque payload. -/
structure PosterTransactionDoc where
  transaction_id : String
  payload : String := ""
deriving DecidableEq, Repr

/-- The persisted state the webhook handler touches: the raw hook collection
(keyed by the minted ObjectId, modelled as a counter) and the transactions
collection (keyed by `transaction_id`). -/
structure Store where
  rawHooks : List (Nat × RawHookDoc)
  transactions : List (String × PosterTransactionDoc)
  nextId : Nat
deriving DecidableEq, Repr

/-- The environment of one webhook invocation: the stored shared secret, the
outcome of the Poster `dash.getTransaction` call (`none` covers an empty
response, a non-2xx status and a timeout — `fetchPosterTransaction` catches
all of them and returns `null`), the success of each store operation the
handler performs, and the clock. -/
structure WebhookEnv where
  validKey : String
  posterResp : Option PosterTransactionDoc
  insertRawOk : Bool
  markErrorOk : Bool
  upsertTxOk : Bool
  finalUpdateOk : Bool
  now : Nat
deriving DecidableEq, Repr

/-- One inbound HTTP request: the method, the (array-normalized) `api-key`
query parameter, and the body. -/
structure WebhookReq where
  method : String
  apiKey : Option String
  body : RawBody
deriving DecidableEq, Repr

/-- The responses the handler can produce. -/
inductive HttpResponse
  /-- 405 `{error: "Method not allowed"}` -/
  | methodNotAllowed : HttpResponse
  /-- 401 `{error: "Unauthorized"}` -/
  | unauthorized : HttpResponse
  /-- 400 `{error: "Invalid payload", details}` -/
  | invalidPayload : String → HttpResponse
  /-- 500 `{error: "Processing failed", message: "Unexpected error"}` -/
  | processingFailed : HttpResponse
  /-- 200 `{success: true, object_id, action, saved_to_transactions, raw_hook_id}` -/
  | success : Int → String → Bool → Nat → HttpResponse
deriving DecidableEq, Repr

/-- `!apiKey || apiKey !== validKey` from the handler's auth check. -/
def authRejected (apiKey : Option String) (validKey : String) : Bool :=
  match apiKey with
  | none => true
  | some v => v == "" || v != validKey

/-- The metadata written with the raw document before any validation. -/
def initMetadata (now : Nat) : HookMetadata :=
  { received_at := now
    processed := false
    processed_at := none
    saved_to_transactions := false
    processing_error := none
    error_time := none }

/-- `rawHooksCollection.insertOne(rawDocument)`: append the snapshotted body
with fresh metadata under a newly minted id. -/
def insertRawStore (s : Store) (b : RawBody) (now : Nat) : Store :=
  { s with
    rawHooks := s.rawHooks ++ [(s.nextId, { body := b, metadata := initMetadata now })]
    nextId := s.nextId + 1 }

/-- `updateOne({_id: rawHookId}, {$set: ...})` on the raw hook collection:
rewrite the metadata of the document with the given id. -/
def updateRawList (l : List (Nat × RawHookDoc)) (n : Nat)
    (f : HookMetadata → HookMetadata) : List (Nat × RawHookDoc) :=
  l.map (fun p => if p.1 = n then (p.1, { p.2 with metadata := f p.2.metadata }) else p)

/-- The `$set` of `markRawError`. -/
def setErrorMeta (msg : String) (now : Nat) (m : HookMetadata) : HookMetadata :=
  { m with processing_error := some msg, error_time := some now }

/-- `markRawError` from the handler: best-effort — a failing update is
logged and swallowed. -/
def markRawError (env : WebhookEnv) (s : Store) (rawId : Nat) (msg : String) : Store :=
  if env.markErrorOk then
    { s with rawHooks := updateRawList s.rawHooks rawId (setErrorMeta msg env.now) }
  else s

/-- The `$set` of the final metadata update: mark processed, record the
definitive `saved_to_transactions`, clear the error fields. -/
def setProcessedMeta (saved : Bool) (now : Nat) (m : HookMetadata) : HookMetadata :=
  { m with
    processed := true
    processed_at := some now
    saved_to_transactions := saved
    processing_error := none
    error_time := none }

/-- `transactionsCollection.updateOne({transaction_id}, {$set}, {upsert:
true})`: replace the record with the same key or append a new one. -/
def upsertTransaction (s : Store) (tx : PosterTransactionDoc) : Store :=
  { s with
    transactions :=
      if s.transactions.any (fun p => p.1 == tx.transaction_id) then
        s.transactions.map (fun p => if p.1 == tx.transaction_id then (p.1, tx) else p)
      else s.transactions ++ [(tx.transaction_id, tx)] }

/-- The tail of the success path: best-effort final metadata update (a
failure is logged and swallowed), then the 200 response. -/
def finishOk (env : WebhookEnv) (s : Store) (rawId : Nat) (saved : Bool)
    (v : ValidatedHook) : HttpResponse × Store :=
  let s' :=
    if env.finalUpdateOk then
      { s with rawHooks := updateRawList s.rawHooks rawId (setProcessedMeta saved env.now) }
    else s
  (.success v.object_id v.action saved rawId, s')

/-- `webhook` from `api/webhook/index.ts` (the deployed handler, whose
allow-list is the five official Poster actions and whose
persistence-triggering actions are `closed` and `changed`): method check,
shared-secret check, unconditional raw persistence, validation with
best-effort error marking, conditional enrichment and derived-record upsert,
best-effort final metadata update, response. -/
def webhook (env : WebhookEnv) (req : WebhookReq) (s : Store) : HttpResponse × Store :=
  if req.method ≠ "POST" then (.methodNotAllowed, s)
  else if authRejected req.apiKey env.validKey then (.unauthorized, s)
  else if env.insertRawOk = false then (.processingFailed, s)
  else
    let rawId := s.nextId
    let s1 := insertRawStore s req.body env.now
    match validationResult req.body with
    | .error d => (.invalidPayload d, markRawError env s1 rawId d)
    | .ok v =>
      if v.action = "closed" ∨ v.action = "changed" then
        match env.posterResp with
        | some tx =>
          if env.upsertTxOk then finishOk env (upsertTransaction s1 tx) rawId true v
          else (.processingFailed, markRawError env s1 rawId "Database error")
        | none => finishOk env s1 rawId false v
      else finishOk env s1 rawId false v

/-! ## Theorems -/

/-- **C7.** The write-off type classification is a pure function over the id
fields checked in strict priority order: a set, non-zero modifier id gives
Modifier (5); otherwise a set, non-zero ingredient id gives Ingredient (4);
otherwise a set, non-zero prepack id gives Prepack (3); otherwise the type
defaults to Ingredient (4).  In particular a record with both ingredient id
and modifier id non-zero classifies as Modifier. -/
theorem writeoff_type_strict_priority (wo : PosterWriteOff) :
    (idSetNonZero wo.modificator_id = true → determineWriteOffType wo = 5) ∧
    (idSetNonZero wo.modificator_id = false → idSetNonZero wo.ingredient_id = true →
      determineWriteOffType wo = 4) ∧
    (idSetNonZero wo.modificator_id = false → idSetNonZero wo.ingredient_id = false →
      idSetNonZero wo.prepack_id = true → determineWriteOffType wo = 3) ∧
    (idSetNonZero wo.modificator_id = false → idSetNonZero wo.ingredient_id = false →
      idSetNonZero wo.prepack_id = false → determineWriteOffType wo = 4) ∧
    (idSetNonZero wo.ingredient_id = true → idSetNonZero wo.modificator_id = true →
      determineWriteOffType wo = 5) := by
  refine ⟨?_, ?_, ?_, ?_, ?_⟩ <;> intros <;> simp_all [determineWriteOffType]

/-- Witness for C7: a record with both `ingredient_id = "100"` and
`modificator_id = "50"` non-zero classifies as Modifier (5). -/
theorem writeoff_type_strict_priority_witness :
    determineWriteOffType
      { write_off_id := "1001", tr_product_id := "2001", storage_id := "1",
        ingredient_id := "100", product_id := "0", modificator_id := "50",
        prepack_id := "0", weight := "0.018", unit := "kg", cost := 1,
        cost_netto := 1, time := "1507703520358" } = 5 :=
  (writeoff_type_strict_priority _).2.2.2.2 (by decide) (by decide)

/-- **C9, counterexample.** The claim says `getCatalogItemName id` returns
the stored item's name whenever an item with that id is present.  A catalog
item whose stored name is the empty string is present, yet the source's
`item?.name || 'Unknown'` returns the sentinel instead of the (empty) name. -/
theorem getCatalogItemName_empty_name_counterexample :
    (List.find? (fun i => i.id == "7")
        [({ id := "7", name := "", type := 4 } : CatalogItem)]).isSome = true ∧
    getCatalogItemName [{ id := "7", name := "", type := 4 }] "7" = "Unknown" ∧
    getCatalogItemName [{ id := "7", name := "", type := 4 }] "7" ≠ "" := by
  refine ⟨by decide, by decide, by decide⟩

/-- **C9, amended.** `getCatalogItemName` always returns a string and never
fails: when no item with the id is found it returns the sentinel
`"Unknown"`; when the first matching item has a non-empty name it returns
that name; and when the first matching item's name is the empty string
(falsy in JavaScript) it also returns `"Unknown"`. -/
theorem getCatalogItemName_lookup (catalog : List CatalogItem) (itemId : String) :
    (catalog.find? (fun i => i.id == itemId) = none →
      getCatalogItemName catalog itemId = "Unknown") ∧
    (∀ it, catalog.find? (fun i => i.id == itemId) = some it → it.name ≠ "" →
      getCatalogItemName catalog itemId = it.name) ∧
    (∀ it, catalog.find? (fun i => i.id == itemId) = some it → it.name = "" →
      getCatalogItemName catalog itemId = "Unknown") := by
  unfold getCatalogItemName
  refine ⟨fun h => by rw [h], fun it h hn => ?_, fun it h hn => ?_⟩
  · rw [h]
    simp [hn]
  · rw [h]
    simp [hn]

/-- Witness for C9: on a concrete catalog, a present id with a non-empty
name returns that name, and an absent id returns `"Unknown"`. -/
theorem getCatalogItemName_lookup_witness :
    getCatalogItemName [{ id := "7", name := "Coffee", type := 4 }] "7" = "Coffee" ∧
    getCatalogItemName [{ id := "7", name := "Coffee", type := 4 }] "9" = "Unknown" :=
  ⟨(getCatalogItemName_lookup [{ id := "7", name := "Coffee", type := 4 }] "7").2.1
      { id := "7", name := "Coffee", type := 4 } (by decide) (by decide),
   (getCatalogItemName_lookup [{ id := "7", name := "Coffee", type := 4 }] "9").1 (by decide)⟩

/-- **C10.** For every raw write-off in the input of
`enrichWriteOffsWithCatalog`, the enriched record's `weight` is the numeric
parse of the raw weight string with `0` substituted when the string does not
parse (never `NaN`), and the id, unit, cost, cost_netto and time fields are
copied through unchanged. -/
theorem enrich_weight_parse_and_copy (catalog : List CatalogItem)
    (wos : List PosterWriteOff) (wo : PosterWriteOff) (hmem : wo ∈ wos) :
    ∃ r, r ∈ enrichWriteOffsWithCatalog wos catalog ∧
      r.weight = (parseFloatQ wo.weight).getD 0 ∧
      (parseFloatQ wo.weight = none → r.weight = 0) ∧
      r.write_off_id = wo.write_off_id ∧
      r.tr_product_id = wo.tr_product_id ∧
      r.storage_id = wo.storage_id ∧
      r.ingredient_id = wo.ingredient_id ∧
      r.product_id = wo.product_id ∧
      r.modificator_id = wo.modificator_id ∧
      r.prepack_id = wo.prepack_id ∧
      r.unit = wo.unit ∧
      r.cost = wo.cost ∧
      r.cost_netto = wo.cost_netto ∧
      r.time = wo.time := by
  refine ⟨enrichWriteOff (createCatalogMap catalog) wo, ?_, ?_, ?_, rfl, rfl, rfl, rfl,
    rfl, rfl, rfl, rfl, rfl, rfl, rfl⟩
  · cases wos with
    | nil => cases hmem
    | cons a l =>
      simp only [enrichWriteOffsWithCatalog, List.isEmpty_cons, if_neg Bool.false_ne_true]
      exact List.mem_map_of_mem _ hmem
  · rfl
  · intro h
    simp [enrichWriteOff, h]

/-- Witness for C10: the write-off with weight string `"0.018"` enriches to
weight `9/500` with its fields copied, via the theorem at that input. -/
theorem enrich_weight_parse_and_copy_witness :
    ∃ r, r ∈ enrichWriteOffsWithCatalog
        [{ write_off_id := "1001", tr_product_id := "2001", storage_id := "1",
           ingredient_id := "100", product_id := "0", modificator_id := "0",
           prepack_id := "0", weight := "0.018", unit := "kg", cost := 25/2,
           cost_netto := 521/50, time := "1507703520358" }]
        [{ id := "100", name := "Coffee beans", type := 4 }] ∧
      r.weight = (parseFloatQ "0.018").getD 0 ∧
      (parseFloatQ "0.018" = none → r.weight = 0) ∧
      r.write_off_id = "1001" ∧
      r.tr_product_id = "2001" ∧
      r.storage_id = "1" ∧
      r.ingredient_id = "100" ∧
      r.product_id = "0" ∧
      r.modificator_id = "0" ∧
      r.prepack_id = "0" ∧
      r.unit = "kg" ∧
      r.cost = 25/2 ∧
      r.cost_netto = 521/50 ∧
      r.time = "1507703520358" :=
  enrich_weight_parse_and_copy
    [{ id := "100", name := "Coffee beans", type := 4 }] _ _ (List.mem_singleton.mpr rfl)

/-- **C4.** With stored metadata `synced_at = T`, a `getCatalog` call at
`T + Δ` (milliseconds) returns the persisted snapshot without calling the
upstream client iff `Δ < 24` hours, and calls the upstream client — then
persists the fetched snapshot together with metadata `synced_at = now` and
`items_count` equal to the snapshot length — iff `Δ ≥ 24` hours; when no
metadata record exists it always takes the refresh branch. -/
theorem getCatalog_cache_ttl (T delta c : Nat) (itemsDoc : Option (List CatalogItem))
    (fetched : List CatalogItem) :
    ((getCatalog (T + delta) fetched ⟨some ⟨T, c⟩, itemsDoc⟩).calledUpstream = false ↔
      delta < 24 * 60 * 60 * 1000) ∧
    (delta < 24 * 60 * 60 * 1000 →
      getCatalog (T + delta) fetched ⟨some ⟨T, c⟩, itemsDoc⟩ =
        ⟨itemsDoc.getD [], ⟨some ⟨T, c⟩, itemsDoc⟩, false⟩) ∧
    (24 * 60 * 60 * 1000 ≤ delta →
      getCatalog (T + delta) fetched ⟨some ⟨T, c⟩, itemsDoc⟩ =
        ⟨fetched, ⟨some ⟨T + delta, fetched.length⟩, some fetched⟩, true⟩) ∧
    (∀ now fd idoc, getCatalog now fd ⟨none, idoc⟩ =
        ⟨fd, ⟨some ⟨now, fd.length⟩, some fd⟩, true⟩) := by
  have hk : (0 : Nat) < 1000 * 60 * 60 := by norm_num
  have hcond : ((T + delta - T) / (1000 * 60 * 60) < CACHE_TTL_HOURS) ↔
      delta < 24 * 60 * 60 * 1000 := by
    rw [Nat.add_sub_cancel_left, CACHE_TTL_HOURS, Nat.div_lt_iff_lt_mul hk]
  refine ⟨?_, fun h => ?_, fun h => ?_, fun now fd idoc => rfl⟩
  · simp only [getCatalog, getCachedItems]
    split_ifs with hc
    · simpa using hcond.mp hc
    · simpa using fun hlt => hc (hcond.mpr hlt)
  · simp only [getCatalog, getCachedItems]
    rw [if_pos (hcond.mpr h)]
  · simp only [getCatalog, saveCatalogToFirestore]
    rw [if_neg (fun hc => absurd (hcond.mp hc) (by omega))]

/-- Witness for C4: with `synced_at = 0`, a call at `Δ = 1000` (one second)
is a cache hit returning the persisted snapshot, and with `Δ` of exactly 24
hours the call refreshes and persists fresh metadata. -/
theorem getCatalog_cache_ttl_witness :
    getCatalog (0 + 1000) [] ⟨some ⟨0, 1⟩, some [{ id := "1", name := "A", type := 1 }]⟩ =
      ⟨[{ id := "1", name := "A", type := 1 }],
        ⟨some ⟨0, 1⟩, some [{ id := "1", name := "A", type := 1 }]⟩, false⟩ ∧
    getCatalog (0 + 24 * 60 * 60 * 1000) [] ⟨some ⟨0, 1⟩, some []⟩ =
      ⟨[], ⟨some ⟨0 + 24 * 60 * 60 * 1000, 0⟩, some []⟩, true⟩ :=
  ⟨(getCatalog_cache_ttl 0 1000 1 (some [{ id := "1", name := "A", type := 1 }]) []).2.1
      (by norm_num),
   (getCatalog_cache_ttl 0 (24 * 60 * 60 * 1000) 1 (some []) []).2.2.1 (by norm_num)⟩

/-- **C8.** The ingredient ignore-list has exactly 8 entries; every upstream
ingredient whose category id is in it produces no `CatalogItem` (the mapped
output has one item per non-ignored ingredient, and every produced item
originates from a non-ignored ingredient), every other upstream ingredient
produces exactly one `CatalogItem`, always with type Ingredient (4); and a
successful `fetchCatalogFromPoster` returns exactly the mapped products
followed by the filtered, mapped ingredients. -/
theorem catalog_ingredient_category_filter (l : List PosterIngredient) :
    IGNORED_INGREDIENT_CATEGORIES.length = 8 ∧
    (mapIngredients l).length + (l.filter ignoredIngredient).length = l.length ∧
    (∀ it ∈ mapIngredients l, it.type = 4) ∧
    (∀ i ∈ l, ignoredIngredient i = false → ingredientToCatalogItem i ∈ mapIngredients l) ∧
    (∀ it ∈ mapIngredients l, ∃ i ∈ l, ignoredIngredient i = false ∧
      it = ingredientToCatalogItem i) ∧
    (∀ env ps r, env.productsResp = some ps → env.ingredientsResp = some l →
      fetchCatalogFromPoster env = .ok r →
      r = ps.map productToCatalogItem ++ mapIngredients l) := by
  refine ⟨rfl, ?_, ?_, ?_, ?_, ?_⟩
  · induction l with
    | nil => simp [mapIngredients]
    | cons i rest ih =>
      cases h : ignoredIngredient i <;>
        simp [mapIngredients, List.filter_cons, h] <;> omega
  · induction l with
    | nil => simp [mapIngredients]
    | cons i rest ih =>
      intro it hit
      cases h : ignoredIngredient i
      · rcases (by simpa [mapIngredients, h] using hit : it = _ ∨ it ∈ mapIngredients rest) with
          heq | hmem
        · rw [heq]; rfl
        · exact ih it hmem
      · exact ih it (by simpa [mapIngredients, h] using hit)
  · induction l with
    | nil => simp
    | cons i rest ih =>
      intro j hj hnot
      rcases List.mem_cons.mp hj with heq | hj2
      · subst heq
        simp [mapIngredients, hnot]
      · cases h : ignoredIngredient i <;> simp only [mapIngredients, h, if_true, if_false]
        · exact List.mem_cons_of_mem _ (ih j hj2 hnot)
        · exact ih j hj2 hnot
  · induction l with
    | nil => simp [mapIngredients]
    | cons i rest ih =>
      intro it hit
      cases h : ignoredIngredient i
      · rcases (by simpa [mapIngredients, h] using hit : it = _ ∨ it ∈ mapIngredients rest) with
          heq | hmem
        · exact ⟨i, List.mem_cons_self _ _, h, heq⟩
        · rcases ih it hmem with ⟨j, hj, hji, hje⟩
          exact ⟨j, List.mem_cons_of_mem _ hj, hji, hje⟩
      · rcases ih it (by simpa [mapIngredients, h] using hit) with ⟨j, hj, hji, hje⟩
        exact ⟨j, List.mem_cons_of_mem _ hj, hji, hje⟩
  · intro env ps r hps his hr
    unfold fetchCatalogFromPoster at hr
    rcases hpo : env.productsOk with _ | _ <;> rw [hpo] at hr
    · simp at hr
    · rcases hio : env.ingredientsOk with _ | _ <;> rw [hio] at hr <;>
        simp only [hps, his] at hr
      · simp at hr
      · simpa using hr.symm

/-- Witness for C8: with one ordinary ingredient (category 5) and one
ignored ingredient (category 14), the mapped catalog holds exactly the item
for the ordinary ingredient, with type 4, and a successful fetch with no
products returns exactly that list. -/
theorem catalog_ingredient_category_filter_witness :
    ingredientToCatalogItem ⟨"1", "Coffee", "5", none⟩ ∈
      mapIngredients [⟨"1", "Coffee", "5", none⟩, ⟨"2", "Admin", "14", none⟩] ∧
    (mapIngredients [⟨"1", "Coffee", "5", none⟩, ⟨"2", "Admin", "14", none⟩]).length +
      ([(⟨"1", "Coffee", "5", none⟩ : PosterIngredient), ⟨"2", "Admin", "14", none⟩].filter
        ignoredIngredient).length = 2 ∧
    [({ id := "1", name := "Coffee", type := 4, unit := none,
        category_id := some "5" } : CatalogItem)] =
      List.map productToCatalogItem [] ++
        mapIngredients [⟨"1", "Coffee", "5", none⟩, ⟨"2", "Admin", "14", none⟩] :=
  ⟨(catalog_ingredient_category_filter _).2.2.2.1 _ (List.mem_cons_self _ _) (by decide),
   (catalog_ingredient_category_filter _).2.1,
   (catalog_ingredient_category_filter
      [⟨"1", "Coffee", "5", none⟩, ⟨"2", "Admin", "14", none⟩]).2.2.2.2.2
      ⟨true, 200, some [], true, 200,
        some [⟨"1", "Coffee", "5", none⟩, ⟨"2", "Admin", "14", none⟩]⟩ [] _ rfl rfl rfl⟩

/-- Updating the raw-hook document that was just appended under a fresh id
rewrites exactly that document and leaves the previously stored ones
untouched. -/
theorem updateRawList_append (l : List (Nat × RawHookDoc)) (n : Nat) (d : RawHookDoc)
    (f : HookMetadata → HookMetadata) (h : ∀ p ∈ l, p.1 ≠ n) :
    updateRawList (l ++ [(n, d)]) n f = l ++ [(n, { d with metadata := f d.metadata })] := by
  unfold updateRawList
  rw [List.map_append]
  congr 1
  · induction l with
    | nil => rfl
    | cons p rest ih =>
      have hp := h p (List.mem_cons_self _ _)
      simp only [List.map_cons, if_neg hp]
      rw [ih (fun q hq => h q (List.mem_cons_of_mem _ hq))]
  · simp

/-- **C3.** A POST webhook request whose `api-key` query parameter is
missing or differs from the stored secret is answered with 401
`{error: "Unauthorized"}`, and the persisted state is completely unchanged:
no raw hook record and no other write. -/
theorem webhook_unauthorized_no_writes (env : WebhookEnv) (req : WebhookReq) (s : Store)
    (hm : req.method = "POST")
    (hk : req.apiKey = none ∨ req.apiKey ≠ some env.validKey) :
    webhook env req s = (.unauthorized, s) := by
  have hrej : authRejected req.apiKey env.validKey = true := by
    rcases hk with h | h
    · simp [authRejected, h]
    · cases hak : req.apiKey with
      | none => simp [authRejected]
      | some v =>
        have hv : v ≠ env.validKey := fun he => h (by rw [hak, he])
        simp [authRejected, hv]
  simp [webhook, hm, hrej]

/-- Witness for C3: a concrete POST with a wrong key returns 401 and leaves
the empty store empty. -/
theorem webhook_unauthorized_no_writes_witness :
    webhook ⟨"secret", none, true, true, true, true, 0⟩
      ⟨"POST", some "wrong", .parsed ⟨some "closed", some 1⟩⟩ ⟨[], [], 0⟩ =
      (.unauthorized, ⟨[], [], 0⟩) :=
  webhook_unauthorized_no_writes _ _ _ rfl (Or.inr (by decide))

/-- **C1.** An authenticated POST whose body is structurally invalid (empty
or malformed JSON, missing or disallowed `action`, or missing `object_id`)
still creates exactly one raw hook record — appended before validation ran,
holding the body snapshot — then updates that record's `processing_error`
and `error_time` with the failure reason, and responds 400 with that same
reason. -/
theorem webhook_invalid_payload_raw_persisted (env : WebhookEnv) (req : WebhookReq)
    (s : Store) (d : String)
    (hm : req.method = "POST")
    (hauth : authRejected req.apiKey env.validKey = false)
    (hins : env.insertRawOk = true)
    (hmark : env.markErrorOk = true)
    (hfresh : ∀ p ∈ s.rawHooks, p.1 ≠ s.nextId)
    (hval : validationResult req.body = .error d) :
    webhook env req s =
      (.invalidPayload d,
        { rawHooks := s.rawHooks ++
            [(s.nextId,
              { body := req.body
                metadata :=
                  { received_at := env.now, processed := false, processed_at := none,
                    saved_to_transactions := false, processing_error := some d,
                    error_time := some env.now } })]
          transactions := s.transactions
          nextId := s.nextId + 1 }) := by
  have hstep : webhook env req s =
      (.invalidPayload d, markRawError env (insertRawStore s req.body env.now) s.nextId d) := by
    simp [webhook, hm, hauth, hins, hval]
  rw [hstep]
  unfold markRawError insertRawStore
  simp only [hmark, if_true]
  rw [updateRawList_append _ _ _ _ hfresh]
  rfl

/-- Witness for C1: a POST with the right key and a body missing `action`
yields 400 with that reason, a single raw record carrying the body, and the
error recorded on its metadata. -/
theorem webhook_invalid_payload_raw_persisted_witness :
    webhook ⟨"secret", none, true, true, true, true, 77⟩
      ⟨"POST", some "secret", .parsed ⟨none, some 5⟩⟩ ⟨[], [], 0⟩ =
      (.invalidPayload "Missing required field: action",
        { rawHooks :=
            [(0, { body := .parsed ⟨none, some 5⟩
                   metadata :=
                     { received_at := 77, processed := false, processed_at := none,
                       saved_to_transactions := false,
                       processing_error := some "Missing required field: action",
                       error_time := some 77 } })]
          transactions := []
          nextId := 1 }) := by
  have h := webhook_invalid_payload_raw_persisted
    ⟨"secret", none, true, true, true, true, 77⟩
    ⟨"POST", some "secret", .parsed ⟨none, some 5⟩⟩ ⟨[], [], 0⟩
    "Missing required field: action" rfl (by decide) rfl rfl
    (by intro p hp; cases hp) rfl
  simpa using h

/-- **C6.** For a webhook with a persistence-triggering action (`closed` or
`changed`), when the upstream transaction-detail call yields no usable data
(empty response, non-2xx error or timeout — all returned as `none` by
`fetchPosterTransaction`), no derived transaction record is written and the
handler still responds 200 with success and `saved_to_transactions = false`. -/
theorem webhook_no_poster_data_still_success (env : WebhookEnv) (req : WebhookReq)
    (s : Store) (a : String) (tid : Int)
    (hm : req.method = "POST")
    (hauth : authRejected req.apiKey env.validKey = false)
    (hins : env.insertRawOk = true)
    (hval : validationResult req.body = .ok ⟨a, tid⟩)
    (hact : a = "closed" ∨ a = "changed")
    (hp : env.posterResp = none) :
    (webhook env req s).1 = .success tid a false s.nextId ∧
    (webhook env req s).2.transactions = s.transactions := by
  have hstep : webhook env req s =
      finishOk env (insertRawStore s req.body env.now) s.nextId false ⟨a, tid⟩ := by
    simp [webhook, hm, hauth, hins, hval, hp, hact]
  rw [hstep]
  by_cases hf : env.finalUpdateOk <;> simp [finishOk, hf, insertRawStore]

/-- Witness for C6: a `closed` webhook for id 999 with an empty Poster
response answers 200 with `saved_to_transactions = false` and writes no
transaction. -/
theorem webhook_no_poster_data_still_success_witness :
    (webhook ⟨"secret", none, true, true, true, true, 0⟩
        ⟨"POST", some "secret", .parsed ⟨some "closed", some 999⟩⟩ ⟨[], [], 0⟩).1 =
      .success 999 "closed" false 0 ∧
    (webhook ⟨"secret", none, true, true, true, true, 0⟩
        ⟨"POST", some "secret", .parsed ⟨some "closed", some 999⟩⟩ ⟨[], [], 0⟩).2.transactions =
      [] :=
  webhook_no_poster_data_still_success _ _ _ "closed" 999 rfl (by decide) rfl rfl
    (Or.inl rfl) rfl

/-- Appending a document whose identity value no element of `rest` shares
does not change the duplicate test for the elements of `rest`. -/
theorem hasTxId_append_of_not_mem (store : List TxDoc) (d : TxDoc) (e : TxDoc)
    (hne : e.transaction_id ≠ d.transaction_id) :
    hasTxId (store ++ [d]) e.transaction_id = hasTxId store e.transaction_id := by
  unfold hasTxId
  rw [List.any_append]
  have hlast : ([d].any fun x => x.transaction_id == e.transaction_id) = false := by
    simp only [List.any_cons, List.any_nil, Bool.or_false]
    exact beq_eq_false_iff_ne.mpr (fun he => hne he.symm)
  rw [hlast, Bool.or_false]

/-- Splitting a list by a Boolean predicate preserves its length. -/
theorem length_filter_split {α : Type} (p : α → Bool) (l : List α) :
    (l.filter p).length + (l.filter (fun x => !(p x))).length = l.length := by
  induction l with
  | nil => rfl
  | cons a rest ih =>
    cases h : p a <;> simp [List.filter_cons, h] <;> omega

/-- The counts accumulated by the MongoDB unordered bulk-insert loop: for a
batch with pairwise-distinct identity values, each document already present
in the store counts as a duplicate and each other document is inserted. -/
theorem mongoInsertLoop_counts (docs : List TxDoc) :
    ∀ (store : List TxDoc) (ins dup : Nat),
      (docs.map TxDoc.transaction_id).Nodup →
      (mongoInsertLoop store docs ins dup).1 =
        ⟨ins + (docs.filter (fun d => !(hasTxId store d.transaction_id))).length,
         dup + (docs.filter (fun d => hasTxId store d.transaction_id)).length⟩ := by
  induction docs with
  | nil => intro store ins dup _; simp [mongoInsertLoop]
  | cons d rest ih =>
    intro store ins dup hnd
    rw [List.map_cons, List.nodup_cons] at hnd
    have hd := hnd.1
    have hnd' := hnd.2
    have hsame : ∀ e ∈ rest,
        hasTxId (store ++ [d]) e.transaction_id = hasTxId store e.transaction_id := by
      intro e he
      refine hasTxId_append_of_not_mem store d e (fun heq => hd ?_)
      rw [← heq]
      exact List.mem_map_of_mem _ he
    cases h : hasTxId store d.transaction_id
    · have hloop : mongoInsertLoop store (d :: rest) ins dup =
          mongoInsertLoop (store ++ [d]) rest (ins + 1) dup := by
        simp [mongoInsertLoop, h]
      rw [hloop, ih (store ++ [d]) (ins + 1) dup hnd']
      have hf1 : rest.filter (fun e => !(hasTxId (store ++ [d]) e.transaction_id)) =
          rest.filter (fun e => !(hasTxId store e.transaction_id)) :=
        List.filter_congr (fun e he => by rw [hsame e he])
      have hf2 : rest.filter (fun e => hasTxId (store ++ [d]) e.transaction_id) =
          rest.filter (fun e => hasTxId store e.transaction_id) :=
        List.filter_congr (fun e he => hsame e he)
      rw [hf1, hf2]
      simp [List.filter_cons, h]
      omega
    · have hloop : mongoInsertLoop store (d :: rest) ins dup =
          mongoInsertLoop store rest ins (dup + 1) := by
        simp [mongoInsertLoop, h]
      rw [hloop, ih store ins (dup + 1) hnd']
      simp [List.filter_cons, h]
      omega

/-- **C5.** For a bulk insert of `n` transaction documents with pairwise
distinct identity values of which `k` already exist in the primary store by
the identity field, `insertMany` returns `insertedCount = n - k` and
`duplicateCount = k` (per-document duplicate conflicts are absorbed, never
raised, and never abort the rest of the batch — the loop is total), and the
returned counts are those of the MongoDB backend whenever MongoDB is
enabled, in particular when both backends are enabled. -/
theorem insertMany_duplicate_tolerant (cfg : DatabaseConfig) (s : DualStore)
    (docs : List TxDoc)
    (hm : cfg.enableMongoDB = true)
    (hnd : (docs.map TxDoc.transaction_id).Nodup) :
    (transactionsInsertMany cfg s docs).1.insertedCount =
      docs.length - (docs.filter (fun d => hasTxId s.mongoTx d.transaction_id)).length ∧
    (transactionsInsertMany cfg s docs).1.duplicateCount =
      (docs.filter (fun d => hasTxId s.mongoTx d.transaction_id)).length ∧
    (transactionsInsertMany cfg s docs).1 = (insertManyMongoDB s.mongoTx docs).1 := by
  have hfacade : (transactionsInsertMany cfg s docs).1 = (insertManyMongoDB s.mongoTx docs).1 := by
    simp [transactionsInsertMany, hm]
  have hcounts := mongoInsertLoop_counts docs s.mongoTx 0 0 hnd
  have hsplit := length_filter_split (fun d => hasTxId s.mongoTx d.transaction_id) docs
  refine ⟨?_, ?_, hfacade⟩ <;> rw [hfacade] <;> unfold insertManyMongoDB <;> rw [hcounts]
  · simp only [Nat.zero_add]
    omega
  · simp only [Nat.zero_add]

/-- Witness for C5: inserting a 2-document batch of which 1 already exists
(by `transaction_id`) on both enabled backends yields `insertedCount = 1`,
`duplicateCount = 1`, equal to the MongoDB backend's own counts. -/
theorem insertMany_duplicate_tolerant_witness :
    (transactionsInsertMany ⟨true, true, true⟩ ⟨[⟨"a", ""⟩], []⟩
        [⟨"a", "x"⟩, ⟨"b", "y"⟩]).1.insertedCount = 1 ∧
    (transactionsInsertMany ⟨true, true, true⟩ ⟨[⟨"a", ""⟩], []⟩
        [⟨"a", "x"⟩, ⟨"b", "y"⟩]).1.duplicateCount = 1 ∧
    (transactionsInsertMany ⟨true, true, true⟩ ⟨[⟨"a", ""⟩], []⟩
        [⟨"a", "x"⟩, ⟨"b", "y"⟩]).1 =
      (insertManyMongoDB [⟨"a", ""⟩] [⟨"a", "x"⟩, ⟨"b", "y"⟩]).1 := by
  have h := insertMany_duplicate_tolerant ⟨true, true, true⟩ ⟨[⟨"a", ""⟩], []⟩
    [⟨"a", "x"⟩, ⟨"b", "y"⟩] rfl (by decide)
  exact ⟨by rw [h.1]; decide, by rw [h.2.1]; decide, h.2.2⟩

/-- The two admissible end states the claim allows for a raw hook record:
processed with the error fields cleared, or unprocessed with the error
recorded. -/
def finalTwoState (m : HookMetadata) : Prop :=
  (m.processed = true ∧ m.processing_error = none ∧ m.error_time = none) ∨
  (m.processed = false ∧ m.processing_error ≠ none ∧ m.error_time ≠ none)

/-- **C2, counterexample.** The claim states that no third state is
reachable.  But both metadata updates are best-effort in the source: when
the final `updateOne` fails (its error is caught and logged), a successfully
processed webhook still returns 200, yet its raw record keeps the initial
metadata — `processed = false` with `processing_error = none`, which is in
neither admissible state. -/
theorem webhook_third_state_counterexample :
    (webhook ⟨"secret", none, true, true, true, false, 77⟩
        ⟨"POST", some "secret", .parsed ⟨some "added", some 7⟩⟩ ⟨[], [], 0⟩).1 =
      .success 7 "added" false 0 ∧
    ∃ rec : RawHookDoc,
      (webhook ⟨"secret", none, true, true, true, false, 77⟩
          ⟨"POST", some "secret", .parsed ⟨some "added", some 7⟩⟩ ⟨[], [], 0⟩).2.rawHooks =
        [(0, rec)] ∧
      rec.metadata.processed = false ∧
      rec.metadata.processing_error = none ∧
      ¬ finalTwoState rec.metadata := by
  refine ⟨rfl, ⟨.parsed ⟨some "added", some 7⟩, initMetadata 77⟩, rfl, rfl, rfl, ?_⟩
  rintro (⟨h1, -, -⟩ | ⟨-, h2, -⟩)
  · exact absurd h1 (by simp [initMetadata])
  · exact h2 rfl

/-- `markRawError` right after the raw insert, with the update succeeding,
appends exactly one record that carries the error metadata. -/
theorem markRawError_insert_rawHooks (env : WebhookEnv) (s : Store) (b : RawBody)
    (msg : String) (hmark : env.markErrorOk = true)
    (hfresh : ∀ p ∈ s.rawHooks, p.1 ≠ s.nextId) :
    (markRawError env (insertRawStore s b env.now) s.nextId msg).rawHooks =
      s.rawHooks ++
        [(s.nextId, { body := b, metadata := setErrorMeta msg env.now (initMetadata env.now) })] := by
  unfold markRawError insertRawStore
  simp only [hmark, if_true]
  exact updateRawList_append _ _ _ _ hfresh

/-- The raw hooks after the success tail, with the final update succeeding,
are those of the store it was given with the target record marked
processed. -/
theorem finishOk_rawHooks (env : WebhookEnv) (st : Store) (n : Nat) (saved : Bool)
    (v : ValidatedHook) (hfinal : env.finalUpdateOk = true) :
    (finishOk env st n saved v).2.rawHooks =
      updateRawList st.rawHooks n (setProcessedMeta saved env.now) := by
  simp [finishOk, hfinal]

/-- **C2, amended.** Provided the raw-record metadata updates performed by
the handler (the best-effort error marking and the best-effort final status
update) succeed, every invocation either leaves the raw-hook collection
unchanged (rejected before persistence) or appends exactly one record that
ends in one of exactly two states: `processed = true` with the error fields
cleared (and a definitive `saved_to_transactions` value), or `processed =
false` with `processing_error` and `error_time` set. -/
theorem webhook_raw_record_two_states (env : WebhookEnv) (req : WebhookReq) (s : Store)
    (hmark : env.markErrorOk = true) (hfinal : env.finalUpdateOk = true)
    (hfresh : ∀ p ∈ s.rawHooks, p.1 ≠ s.nextId) :
    (webhook env req s).2.rawHooks = s.rawHooks ∨
    ∃ rec : RawHookDoc,
      (webhook env req s).2.rawHooks = s.rawHooks ++ [(s.nextId, rec)] ∧
      finalTwoState rec.metadata := by
  by_cases hm : req.method = "POST"
  case neg =>
    left
    simp [webhook, hm]
  by_cases hauthp : authRejected req.apiKey env.validKey = true
  case pos =>
    left
    simp [webhook, hm, hauthp]
  have hauth : authRejected req.apiKey env.validKey = false := by
    rwa [Bool.not_eq_true] at hauthp
  by_cases hinsp : env.insertRawOk = false
  case pos =>
    left
    simp [webhook, hm, hauth, hinsp]
  have hins : env.insertRawOk = true := by
    rwa [Bool.not_eq_false] at hinsp
  rcases hval : validationResult req.body with d | v
  · right
    have hstep : webhook env req s =
        (.invalidPayload d, markRawError env (insertRawStore s req.body env.now) s.nextId d) := by
      simp [webhook, hm, hauth, hins, hval]
    refine ⟨⟨req.body, setErrorMeta d env.now (initMetadata env.now)⟩, ?_, ?_⟩
    · rw [hstep]
      exact markRawError_insert_rawHooks env s req.body d hmark hfresh
    · right
      refine ⟨rfl, ?_, ?_⟩ <;> simp [setErrorMeta]
  · by_cases hact : v.action = "closed" ∨ v.action = "changed"
    · rcases hp : env.posterResp with _ | tx
      · right
        have hstep : webhook env req s =
            finishOk env (insertRawStore s req.body env.now) s.nextId false v := by
          simp [webhook, hm, hauth, hins, hval, hact, hp]
        refine ⟨⟨req.body, setProcessedMeta false env.now (initMetadata env.now)⟩, ?_, ?_⟩
        · rw [hstep, finishOk_rawHooks _ _ _ _ _ hfinal]
          exact updateRawList_append _ _ _ _ hfresh
        · left
          exact ⟨rfl, rfl, rfl⟩
      · cases hup : env.upsertTxOk with
        | false =>
          right
          have hstep : webhook env req s =
              (.processingFailed,
                markRawError env (insertRawStore s req.body env.now) s.nextId
                  "Database error") := by
            simp [webhook, hm, hauth, hins, hval, hact, hp, hup]
          refine ⟨⟨req.body, setErrorMeta "Database error" env.now (initMetadata env.now)⟩,
            ?_, ?_⟩
          · rw [hstep]
            exact markRawError_insert_rawHooks env s req.body _ hmark hfresh
          · right
            refine ⟨rfl, ?_, ?_⟩ <;> simp [setErrorMeta]
        | true =>
          right
          have hstep : webhook env req s =
              finishOk env (upsertTransaction (insertRawStore s req.body env.now) tx)
                s.nextId true v := by
            simp [webhook, hm, hauth, hins, hval, hact, hp, hup]
          refine ⟨⟨req.body, setProcessedMeta true env.now (initMetadata env.now)⟩, ?_, ?_⟩
          · rw [hstep, finishOk_rawHooks _ _ _ _ _ hfinal]
            exact updateRawList_append _ _ _ _ hfresh
          · left
            exact ⟨rfl, rfl, rfl⟩
    · right
      have hstep : webhook env req s =
          finishOk env (insertRawStore s req.body env.now) s.nextId false v := by
        simp [webhook, hm, hauth, hins, hval, hact]
      refine ⟨⟨req.body, setProcessedMeta false env.now (initMetadata env.now)⟩, ?_, ?_⟩
      · rw [hstep, finishOk_rawHooks _ _ _ _ _ hfinal]
        exact updateRawList_append _ _ _ _ hfresh
      · left
        exact ⟨rfl, rfl, rfl⟩

/-- Witness for C2 (amended): a successful `added` webhook against the empty
store, with both metadata updates succeeding, appends one record in an
admissible end state. -/
theorem webhook_raw_record_two_states_witness :
    (webhook ⟨"secret", none, true, true, true, true, 77⟩
        ⟨"POST", some "secret", .parsed ⟨some "added", some 7⟩⟩ ⟨[], [], 0⟩).2.rawHooks =
      ([] : List (Nat × RawHookDoc)) ∨
    ∃ rec : RawHookDoc,
      (webhook ⟨"secret", none, true, true, true, true, 77⟩
          ⟨"POST", some "secret", .parsed ⟨some "added", some 7⟩⟩ ⟨[], [], 0⟩).2.rawHooks =
        [] ++ [(0, rec)] ∧
      finalTwoState rec.metadata :=
  webhook_raw_record_two_states _ _ _ rfl rfl (by intro p hp; cases hp)

end CaffeControl
